import Mathlib

/-!
Verification development for the docker-sweep resource analysis, categorization
and deletion-orchestration engine.

The Go source is shallowly embedded:
* Go `map[string]string` label maps become association lists
  (`List (String × String)`); a missing key looks up to `""`, matching Go's
  zero-value map access.
* Go `time.Time` values become `Int` nanosecond timestamps, with `0` standing
  for the zero (unknown) time, and `time.Duration` becomes `Int`; `time.Since`
  becomes subtraction from an explicit `now` parameter.
* Timestamp strings arriving from `docker inspect` are modelled already parsed
  as `Option Int` (`none` = empty or unparseable), mirroring the
  `if t, err := time.Parse(...); err == nil` pattern in the source.
* External `docker` CLI invocations (listings, inspects, removes) become
  explicit environment functions passed as parameters; a removal environment
  may consult the history of removal calls issued so far, which models an
  external runtime whose state evolves as resources are removed.
* Go substring matching (`strings.Contains`, `strings.ToLower`) is embedded
  with executable character-list functions below.
-/

namespace DockerSweep

/-- Character-list version of Go `strings.HasPrefix`: does `s` start with `pat`? -/
def charsStartWith : List Char → List Char → Bool
  | _, [] => true
  | [], _ :: _ => false
  | c :: cs, p :: ps => c == p && charsStartWith cs ps

/-- Character-list version of Go `strings.Contains`: does `pat` occur inside `s`? -/
def charsContain : List Char → List Char → Bool
  | [], pat => pat.isEmpty
  | c :: rest, pat => charsStartWith (c :: rest) pat || charsContain rest pat

/-- Go `strings.Contains` on strings (all messages in this code base are ASCII). -/
def hasSub (s pat : String) : Bool :=
  charsContain s.data pat.data

/-- ASCII lower-casing of one character, as Go `strings.ToLower` acts on the
ASCII error messages this code base matches against. -/
def lowerChar (c : Char) : Char :=
  if 'A' ≤ c ∧ c ≤ 'Z' then Char.ofNat (c.toNat + 32) else c

/-- Go `strings.ToLower` restricted to ASCII strings. -/
def toLowerStr (s : String) : String :=
  String.mk (s.data.map lowerChar)

/-- Label maps (`map[string]string`): association lists. -/
abbrev LabelMap := List (String × String)

/-- Go map access `labels[key]`: the stored value, or `""` when absent. -/
def lookupLabel (labels : LabelMap) (key : String) : String :=
  match labels.find? (fun p => p.1 == key) with
  | some p => p.2
  | none => ""

/-- Merging one Go map into another (`for k, v := range overlay { base[k] = v }`):
with first-match lookup, putting the overlay first makes it override the base. -/
def mergeLabels (base overlay : LabelMap) : LabelMap :=
  overlay ++ base

/-- `docker.LabelProtect` (`internal/docker/runtime.go`). -/
def LabelProtect : String := "sweep.protect"

/-- `docker.LabelComposeProject`. -/
def LabelComposeProject : String := "com.docker.compose.project"

/-- `docker.LabelPodmanProject`. -/
def LabelPodmanProject : String := "io.podman.compose.project"

/-- `docker.ComposeProjectFromLabels`. -/
def ComposeProjectFromLabels (labels : LabelMap) : String :=
  if lookupLabel labels LabelComposeProject ≠ "" then
    lookupLabel labels LabelComposeProject
  else
    lookupLabel labels LabelPodmanProject

/-! ### Resource type and category constants (`internal/sweep/resource.go`) -/

/-- `sweep.TypeContainer`. -/
def TypeContainer : String := "container"

/-- `sweep.TypeImage`. -/
def TypeImage : String := "image"

/-- `sweep.TypeVolume`. -/
def TypeVolume : String := "volume"

/-- `sweep.TypeNetwork`. -/
def TypeNetwork : String := "network"

/-- `sweep.CategoryProtected`. -/
def CategoryProtected : String := "protected"

/-- `sweep.CategoryInUse`. -/
def CategoryInUse : String := "in_use"

/-- `sweep.CategorySuggested`. -/
def CategorySuggested : String := "suggested"

/-- `sweep.CategoryUnused`. -/
def CategoryUnused : String := "unused"

/-! ### Raw listing records (`internal/docker`) -/

/-- `docker.Container` (listing record from `docker ps -a`). -/
structure Container where
  id : String
  names : String
  image : String
  state : String
  status : String
  createdAt : Int
  size : String
  labels : LabelMap
deriving DecidableEq, Inhabited

/-- `docker.Image` (listing record from `docker images`).  `createdAtRaw` is the
parse result of the raw `CreatedAt` string field (`none` = empty or
unparseable); `createdAtTime`/`hasCreatedAt`, `sizeBytes`/`hasSize` and
`listLabels`/`hasListLabels` mirror the parsed metadata fields. -/
structure Image where
  id : String
  repository : String
  tag : String
  createdAtRaw : Option Int
  sizeBytes : Int
  hasSize : Bool
  createdAtTime : Int
  hasCreatedAt : Bool
  listLabels : LabelMap
  hasListLabels : Bool
deriving DecidableEq, Inhabited

/-- `docker.Volume` (listing record from `docker volume ls`). -/
structure Volume where
  name : String
  driver : String
  mountpoint : String
deriving DecidableEq, Inhabited

/-- `docker.Network` (listing record from `docker network ls`). -/
structure Network where
  id : String
  name : String
  driver : String
  scope : String
deriving DecidableEq, Inhabited

/-- `docker.SystemNetworks`. -/
def SystemNetworks (name : String) : Bool :=
  name == "bridge" || name == "host" || name == "none" || name == "podman"

/-- ASCII whitespace, as `strings.TrimSpace` strips from the ASCII image ids
this code base handles. -/
def isSpaceChar (c : Char) : Bool :=
  c == ' ' || c == '\t' || c == '\n' || c == '\x0b' || c == '\x0c' || c == '\r'

/-- `docker.NormalizeImageID`: trim surrounding whitespace, then a leading
`sha256:`. -/
def NormalizeImageID (id : String) : String :=
  let t := ((id.data.dropWhile isSpaceChar).reverse.dropWhile isSpaceChar).reverse
  if charsStartWith t ("sha256:").data then String.mk (t.drop 7) else String.mk t

/-- `docker.IsAnonymousVolume`: exactly 64 characters, each a digit or a
lowercase `a`–`f`. -/
def IsAnonymousVolume (name : String) : Bool :=
  if name.length ≠ 64 then false
  else name.data.all (fun c => (('0' ≤ c ∧ c ≤ '9') ∨ ('a' ≤ c ∧ c ≤ 'f') : Prop))

/-! ### Sweep configuration (`internal/config/config.go`) -/

/-- `config.Config`. -/
structure Config where
  yes : Bool := false
  dryRun : Bool := false
  olderThan : Int := 0
  minSize : Int := 0
  dangling : Bool := false
  noDangling : Bool := false
  exited : Bool := false
  anonymous : Bool := false
deriving DecidableEq, Inhabited

/-- `config.DefaultConfig`. -/
def DefaultConfig : Config := {}

/-! ### Categorization policies (`internal/sweep/{containers,images,volumes,networks}.go`) -/

/-- `sweep.categorizeContainer`. -/
def categorizeContainer (c : Container) (labels : LabelMap) (_cfg : Config) :
    String × String :=
  if lookupLabel labels LabelProtect = "true" then (CategoryProtected, "protected by label")
  else if c.state = "running" then (CategoryProtected, "running")
  else if c.state = "paused" then (CategoryProtected, "paused")
  else if c.state = "restarting" then (CategoryProtected, "restarting")
  else if c.state = "exited" ∨ c.state = "dead" ∨ c.state = "created" then
    (CategorySuggested, "")
  else (CategoryUnused, "")

/-- `sweep.categorizeImage`. -/
def categorizeImage (img : Image) (inUse : Bool) (labels : LabelMap) (_cfg : Config) :
    String × String :=
  if lookupLabel labels LabelProtect = "true" then (CategoryProtected, "protected by label")
  else if inUse then (CategoryProtected, "in use by container")
  else if img.repository = "<none>" ∧ img.tag = "<none>" then (CategorySuggested, "")
  else (CategoryUnused, "")

/-- `sweep.categorizeVolume`. -/
def categorizeVolume (vol : Volume) (inUse : Bool) (labels : LabelMap) (_cfg : Config) :
    String × String :=
  if lookupLabel labels LabelProtect = "true" then (CategoryProtected, "protected by label")
  else if inUse then (CategoryProtected, "mounted by container")
  else if IsAnonymousVolume vol.name then (CategorySuggested, "")
  else (CategoryUnused, "")

/-- `sweep.categorizeNetwork`. -/
def categorizeNetwork (net : Network) (inUse : Bool) (labels : LabelMap) (_cfg : Config) :
    String × String :=
  if lookupLabel labels LabelProtect = "true" then (CategoryProtected, "protected by label")
  else if SystemNetworks net.name then (CategoryProtected, "system network")
  else if inUse then (CategoryProtected, "in use by container")
  else (CategorySuggested, "")

/-! ### Inspect records (`internal/docker`), timestamps pre-parsed -/

/-- `docker.ContainerInspect` (`Created` is a decoded `time.Time`, `0` = zero). -/
structure ContainerInspect where
  id : String
  created : Int
  configLabels : LabelMap
deriving DecidableEq, Inhabited

/-- `docker.ImageInspect` after the `Labels`/`Config.Labels` fix-up that both
`InspectImage` and `InspectImages` apply before returning; `created` is the
parse result of the `Created` string. -/
structure ImageInspect where
  id : String
  size : Int
  created : Option Int
  labels : LabelMap
deriving DecidableEq, Inhabited

/-- `docker.VolumeInspect`; `createdAt` is the parse result of the `CreatedAt`
string. -/
structure VolumeInspect where
  name : String
  driver : String
  mountpoint : String
  createdAt : Option Int
  labels : LabelMap
deriving DecidableEq, Inhabited

/-- `docker.NetworkInspect`; `created` is the parse result of the `Created`
string. -/
structure NetworkInspect where
  id : String
  name : String
  created : Option Int
  driver : String
  labels : LabelMap
deriving DecidableEq, Inhabited

/-! ### Analyzed resource records (`internal/sweep`) -/

/-- `sweep.ContainerResource`. -/
structure ContainerResource where
  container : Container
  category : String
  labels : LabelMap
  createdAt : Int
  composeProject : String
  protectReason : String
deriving DecidableEq, Inhabited

/-- `ContainerResource.IsProtected`. -/
def ContainerResource.IsProtected (c : ContainerResource) : Bool :=
  c.category == CategoryProtected

/-- `ContainerResource.IsSuggested`. -/
def ContainerResource.IsSuggested (c : ContainerResource) : Bool :=
  c.category == CategorySuggested

/-- `sweep.ImageResource`. -/
structure ImageResource where
  image : Image
  category : String
  inUse : Bool
  size : Int
  labels : LabelMap
  createdAt : Int
  protectReason : String
deriving DecidableEq, Inhabited

/-- `ImageResource.IsProtected`. -/
def ImageResource.IsProtected (i : ImageResource) : Bool :=
  i.category == CategoryProtected

/-- `ImageResource.IsSuggested`. -/
def ImageResource.IsSuggested (i : ImageResource) : Bool :=
  i.category == CategorySuggested

/-- `sweep.VolumeResource`. -/
structure VolumeResource where
  volume : Volume
  category : String
  inUse : Bool
  labels : LabelMap
  createdAt : Int
  composeProject : String
  protectReason : String
deriving DecidableEq, Inhabited

/-- `VolumeResource.IsProtected`. -/
def VolumeResource.IsProtected (v : VolumeResource) : Bool :=
  v.category == CategoryProtected

/-- `VolumeResource.IsSuggested`. -/
def VolumeResource.IsSuggested (v : VolumeResource) : Bool :=
  v.category == CategorySuggested

/-- `sweep.NetworkResource`. -/
structure NetworkResource where
  network : Network
  category : String
  inUse : Bool
  labels : LabelMap
  createdAt : Int
  composeProject : String
  protectReason : String
deriving DecidableEq, Inhabited

/-- `NetworkResource.IsProtected`. -/
def NetworkResource.IsProtected (n : NetworkResource) : Bool :=
  n.category == CategoryProtected

/-- `NetworkResource.IsSuggested`. -/
def NetworkResource.IsSuggested (n : NetworkResource) : Bool :=
  n.category == CategorySuggested

/-! ### Analyzers (`internal/sweep`), embedded as pure functions

Each analyzer's loop body is an independent per-record step that either skips
the record (a filter hit) or emits one analyzed record, so the loop is a
`List.filterMap` of a step function.  The external `docker` calls become
environment parameters: `inspectB` is the batch-inspect map (empty when the
batch call failed), `inspectOne` the per-record fallback inspect
(`none` = the call failed). -/

/-- Labels and creation timestamp an analyzed container derives from the
listing record and the inspect environments
(`AnalyzeContainersWithConfig`, lines 86–104). -/
def containerDerived (inspectB inspectOne : String → Option ContainerInspect)
    (c : Container) : LabelMap × Int :=
  match inspectB c.id with
  | some ins => (mergeLabels c.labels ins.configLabels, ins.created)
  | none =>
    match inspectOne c.id with
    | some ins => (mergeLabels c.labels ins.configLabels, ins.created)
    | none => (c.labels, 0)

/-- One iteration of the `AnalyzeContainersWithConfig` loop. -/
def analyzeContainerOne (cfg : Config) (now : Int)
    (inspectB inspectOne : String → Option ContainerInspect) (c : Container) :
    Option ContainerResource :=
  let d := containerDerived inspectB inspectOne c
  let composeProject := ComposeProjectFromLabels d.1
  let cp := categorizeContainer c d.1 cfg
  if 0 < cfg.olderThan ∧ d.2 ≠ 0 ∧ now - d.2 < cfg.olderThan then none
  else if cfg.exited = true ∧ c.state ≠ "exited" then none
  else some { container := c, category := cp.1, labels := d.1, createdAt := d.2,
              composeProject := composeProject, protectReason := cp.2 }

/-- `sweep.AnalyzeContainersWithConfig`. -/
def AnalyzeContainersWithConfig (cfg : Config) (now : Int)
    (inspectB inspectOne : String → Option ContainerInspect)
    (containers : List Container) : List ContainerResource :=
  containers.filterMap (analyzeContainerOne cfg now inspectB inspectOne)

/-- `sweep.imageNeedsInspect` condition (`AnalyzeImagesWithConfig`,
lines 100–109). -/
def imageNeedsInspect (cfg : Config) (img : Image) : Bool :=
  (decide (0 < cfg.minSize) && (!img.hasSize || decide (img.sizeBytes = 0))) ||
  (decide (0 < cfg.olderThan) && !img.hasCreatedAt) ||
  !img.hasListLabels

/-- Size, labels and creation timestamp an analyzed image derives from the
listing record and the inspect environments
(`AnalyzeImagesWithConfig`, lines 137–173). -/
def imageDerived (inspectB inspectOne : String → Option ImageInspect)
    (needed : String → Bool) (img : Image) : Int × LabelMap × Int :=
  let normalizedID := NormalizeImageID img.id
  let afterInspect :=
    match inspectB normalizedID with
    | some ins => (ins.size, ins.labels, ins.created.getD img.createdAtTime)
    | none =>
      if needed normalizedID then
        match inspectOne img.id with
        | some ins => (ins.size, ins.labels, ins.created.getD img.createdAtTime)
        | none => (img.sizeBytes, img.listLabels, img.createdAtTime)
      else (img.sizeBytes, img.listLabels, img.createdAtTime)
  let size := if afterInspect.1 = 0 ∧ img.hasSize = true then img.sizeBytes else afterInspect.1
  let ca0 := afterInspect.2.2
  let ca1 := if ca0 = 0 ∧ img.hasCreatedAt = true then img.createdAtTime else ca0
  let ca2 :=
    if ca1 = 0 then
      match img.createdAtRaw with
      | some t => t
      | none => ca1
    else ca1
  (size, afterInspect.2.1, ca2)

/-- One iteration of the `AnalyzeImagesWithConfig` loop. -/
def analyzeImageOne (cfg : Config) (now : Int) (inUse : String → Bool)
    (inspectB inspectOne : String → Option ImageInspect) (needed : String → Bool)
    (img : Image) : Option ImageResource :=
  let normalizedID := NormalizeImageID img.id
  let used := inUse (img.repository ++ ":" ++ img.tag) || inUse normalizedID
  let d := imageDerived inspectB inspectOne needed img
  if 0 < cfg.olderThan ∧ d.2.2 ≠ 0 ∧ now - d.2.2 < cfg.olderThan then none
  else if 0 < cfg.minSize ∧ d.1 < cfg.minSize then none
  else if cfg.dangling = true ∧ ¬(img.repository = "<none>" ∧ img.tag = "<none>") then none
  else if cfg.noDangling = true ∧ img.repository = "<none>" ∧ img.tag = "<none>" then none
  else
    let cp := categorizeImage img used d.2.1 cfg
    some { image := img, category := cp.1, inUse := used, size := d.1,
           labels := d.2.1, createdAt := d.2.2, protectReason := cp.2 }

/-- `sweep.AnalyzeImagesWithConfig`.  `batch` is the `InspectImages` call
(`none` = the batch call failed); `inspectOne` the `InspectImage` fallback. -/
def AnalyzeImagesWithConfig (cfg : Config) (now : Int) (images : List Image)
    (inUse : String → Bool)
    (batch : List String → Option (String → Option ImageInspect))
    (inspectOne : String → Option ImageInspect) : List ImageResource :=
  let imageIDs := images.filterMap (fun img =>
    let id := NormalizeImageID img.id
    if id = "" then none else some id)
  let needed : String → Bool := fun id =>
    images.any (fun img =>
      NormalizeImageID img.id == id && !(NormalizeImageID img.id == "") &&
      imageNeedsInspect cfg img)
  let idsToInspect := imageIDs.filter needed
  let inspectB : String → Option ImageInspect :=
    if idsToInspect = [] then fun _ => none
    else
      match batch idsToInspect with
      | some m => m
      | none => fun _ => none
  images.filterMap (analyzeImageOne cfg now inUse inspectB inspectOne needed)

/-- Labels, creation timestamp and compose project an analyzed volume derives
from the inspect environments (`AnalyzeVolumesWithConfig`, lines 89–105). -/
def volumeDerived (inspectB inspectOne : String → Option VolumeInspect)
    (v : Volume) : LabelMap × Int × String :=
  match inspectB v.name with
  | some ins => (ins.labels, ins.createdAt.getD 0, ComposeProjectFromLabels ins.labels)
  | none =>
    match inspectOne v.name with
    | some ins => (ins.labels, ins.createdAt.getD 0, ComposeProjectFromLabels ins.labels)
    | none => ([], 0, "")

/-- One iteration of the `AnalyzeVolumesWithConfig` loop. -/
def analyzeVolumeOne (cfg : Config) (now : Int)
    (inspectB inspectOne : String → Option VolumeInspect) (inUse : String → Bool)
    (v : Volume) : Option VolumeResource :=
  let used := inUse v.name
  let d := volumeDerived inspectB inspectOne v
  if 0 < cfg.olderThan ∧ d.2.1 ≠ 0 ∧ now - d.2.1 < cfg.olderThan then none
  else if cfg.anonymous = true ∧ IsAnonymousVolume v.name = false then none
  else
    let cp := categorizeVolume v used d.1 cfg
    some { volume := v, category := cp.1, inUse := used, labels := d.1,
           createdAt := d.2.1, composeProject := d.2.2, protectReason := cp.2 }

/-- `sweep.AnalyzeVolumesWithConfig`. -/
def AnalyzeVolumesWithConfig (cfg : Config) (now : Int)
    (inspectB inspectOne : String → Option VolumeInspect) (inUse : String → Bool)
    (volumes : List Volume) : List VolumeResource :=
  volumes.filterMap (analyzeVolumeOne cfg now inspectB inspectOne inUse)

/-- Labels, creation timestamp and compose project an analyzed network derives
from the inspect environment (`AnalyzeNetworksWithConfig`, lines 77–87). -/
def networkDerived (inspectOne : String → Option NetworkInspect) (n : Network) :
    LabelMap × Int × String :=
  match inspectOne n.id with
  | some ins => (ins.labels, ins.created.getD 0, ComposeProjectFromLabels ins.labels)
  | none => ([], 0, "")

/-- One iteration of the `AnalyzeNetworksWithConfig` loop. -/
def analyzeNetworkOne (cfg : Config) (now : Int)
    (inspectOne : String → Option NetworkInspect) (inUse : String → Bool)
    (n : Network) : Option NetworkResource :=
  let used := inUse n.name
  let d := networkDerived inspectOne n
  if 0 < cfg.olderThan ∧ d.2.1 ≠ 0 ∧ now - d.2.1 < cfg.olderThan then none
  else
    let cp := categorizeNetwork n used d.1 cfg
    some { network := n, category := cp.1, inUse := used, labels := d.1,
           createdAt := d.2.1, composeProject := d.2.2, protectReason := cp.2 }

/-- `sweep.AnalyzeNetworksWithConfig`. -/
def AnalyzeNetworksWithConfig (cfg : Config) (now : Int)
    (inspectOne : String → Option NetworkInspect) (inUse : String → Bool)
    (networks : List Network) : List NetworkResource :=
  networks.filterMap (analyzeNetworkOne cfg now inspectOne inUse)

/-! ### Deletion orchestrator (`internal/sweep/resource.go`, lines 141–279)

`DeleteResources` works against the `Resource` interface through `Type()`,
`ID()` and `DisplayName()` only; `Res` is that interface view.  `docker.Remove`
is an environment returning `none` on success or `some msg` (the error message
string) on failure; it may consult the list of removal calls already issued,
which models an external runtime whose state evolves during deletion.  Each
embedded function additionally returns the list of removal calls it issued, in
order, so the claims about call ordering and retry passes can be stated. -/

/-- The view of a `sweep.Resource` the deletion orchestrator uses. -/
structure Res where
  rtype : String
  id : String
  displayName : String
deriving DecidableEq, Inhabited

/-- One `docker.Remove` invocation (resource type and id, as passed in
`docker.Remove(string(res.Type()), res.ID())`). -/
structure Call where
  kind : String
  cid : String
deriving DecidableEq, Inhabited

/-- The removal environment: given the history of calls issued so far and the
arguments of `docker.Remove`, report success (`none`) or an error message. -/
abbrev RemoveEnv := List Call → String → String → Option String

/-- The call `deleteAll`/`deleteImagesWithRetry` issue for a resource. -/
def resCall (r : Res) : Call :=
  ⟨r.rtype, r.id⟩

/-- `sweep.isDependencyError`. -/
def isDependencyError (msg : String) : Bool :=
  let errStr := toLowerStr msg
  hasSub errStr "dependent" ||
  hasSub errStr "has dependent child images" ||
  hasSub errStr "image is being used" ||
  hasSub errStr "image has dependent child images"

/-- `sweep.isAlreadyRemovedError`.  In the source, a common "not found"/"no
such" match returns from inside the `switch` for the four known types; only
when the switch falls through (or the common match fails) is the image-only
"image not known" check reached. -/
def isAlreadyRemovedError (resourceType : String) (msg : String) : Bool :=
  let errStr := toLowerStr msg
  let common := hasSub errStr "not found" || hasSub errStr "no such"
  if common && resourceType == TypeImage then hasSub errStr "image"
  else if common && resourceType == TypeContainer then hasSub errStr "container"
  else if common && resourceType == TypeVolume then hasSub errStr "volume"
  else if common && resourceType == TypeNetwork then hasSub errStr "network"
  else if resourceType == TypeImage && hasSub errStr "image not known" then true
  else false

/-- `sweep.deleteAll`: returns (deleted count, error strings, calls issued).
An error entry `fmt.Errorf("%s: %w", res.DisplayName(), err)` is embedded as
the string `displayName ++ ": " ++ msg`. -/
def deleteAll (env : RemoveEnv) : List Res → List Call → Nat × List String × List Call
  | [], _ => (0, [], [])
  | r :: rest, hist =>
    let out := deleteAll env rest (hist ++ [resCall r])
    match env hist r.rtype r.id with
    | none => (out.1 + 1, out.2.1, resCall r :: out.2.2)
    | some msg =>
      if isAlreadyRemovedError r.rtype msg then (out.1 + 1, out.2.1, resCall r :: out.2.2)
      else (out.1, (r.displayName ++ ": " ++ msg) :: out.2.1, resCall r :: out.2.2)

/-- One pass of the `deleteImagesWithRetry` loop: returns (deleted count,
error strings, resources deferred to the next pass, calls issued). -/
def deletePass (env : RemoveEnv) :
    List Res → List Call → Nat × List String × List Res × List Call
  | [], _ => (0, [], [], [])
  | r :: rest, hist =>
    let out := deletePass env rest (hist ++ [resCall r])
    match env hist r.rtype r.id with
    | none => (out.1 + 1, out.2.1, out.2.2.1, resCall r :: out.2.2.2)
    | some msg =>
      if isAlreadyRemovedError r.rtype msg then
        (out.1 + 1, out.2.1, out.2.2.1, resCall r :: out.2.2.2)
      else if isDependencyError msg then
        (out.1, out.2.1, r :: out.2.2.1, resCall r :: out.2.2.2)
      else
        (out.1, (r.displayName ++ ": " ++ msg) :: out.2.1, out.2.2.1,
          resCall r :: out.2.2.2)

/-- The `for attempt := 0; attempt < 3 && len(pending) > 0` loop of
`deleteImagesWithRetry`, with the remaining pass budget as fuel, followed by
the final "has dependent images (not deleted)" errors for what is left. -/
def retryGo (env : RemoveEnv) : Nat → List Res → List Call → Nat × List String × List Call
  | 0, pending, _ =>
    (0, pending.map (fun r => r.displayName ++ ": has dependent images (not deleted)"), [])
  | fuel + 1, pending, hist =>
    if pending = [] then (0, [], [])
    else
      let p := deletePass env pending hist
      let out := retryGo env fuel p.2.2.1 (hist ++ p.2.2.2)
      (p.1 + out.1, p.2.1 ++ out.2.1, p.2.2.2 ++ out.2.2)

/-- `sweep.deleteImagesWithRetry` (maximum 3 passes). -/
def deleteImagesWithRetry (env : RemoveEnv) (resources : List Res) (hist : List Call) :
    Nat × List String × List Call :=
  retryGo env 3 resources hist

/-- `sweep.DeleteResources`: separate by type, then containers, networks,
volumes, and images (with retry) in that order. -/
def DeleteResources (env : RemoveEnv) (resources : List Res) :
    Nat × List String × List Call :=
  let containers := resources.filter (fun r => r.rtype == TypeContainer)
  let images := resources.filter (fun r => r.rtype == TypeImage)
  let volumes := resources.filter (fun r => r.rtype == TypeVolume)
  let networks := resources.filter (fun r => r.rtype == TypeNetwork)
  let o1 := deleteAll env containers []
  let o2 := deleteAll env networks o1.2.2
  let o3 := deleteAll env volumes (o1.2.2 ++ o2.2.2)
  let o4 := deleteImagesWithRetry env images (o1.2.2 ++ o2.2.2 ++ o3.2.2)
  (o1.1 + o2.1 + o3.1 + o4.1, o1.2.1 ++ o2.2.1 ++ o3.2.1 ++ o4.2.1,
    o1.2.2 ++ o2.2.2 ++ o3.2.2 ++ o4.2.2)

/-! ### Batch inspection (`internal/docker/images.go` 253–293,
`internal/docker/volumes.go` 120–155)

The `docker inspect` invocation for one batch of at most 100 ids is an
environment returning `none` when the CLI call or the JSON decode of the whole
batch output failed, and the decoded entry list otherwise.  A "malformed or
missing" entry is one that decoded without the key field (`Id` resp. `Name`),
which the source skips.  The result map is an association list where later
inserts shadow earlier ones, looked up with `mapLookup`. -/

/-- Raw decoded `ImageInspect` entry, before the `Labels`/`Config.Labels`
fix-up: `labels` is `none` when the `Labels` field was JSON `null`/absent. -/
structure ImageInspectRaw where
  id : String
  size : Int
  created : Option Int
  labels : Option LabelMap
  configLabels : LabelMap
deriving DecidableEq, Inhabited

/-- The fix-up `if item.Labels == nil { item.Labels = item.Config.Labels }`. -/
def fixupImageInspect (raw : ImageInspectRaw) : ImageInspect :=
  { id := raw.id, size := raw.size, created := raw.created,
    labels := raw.labels.getD raw.configLabels }

/-- Go map lookup for the batch result, with later inserts shadowing earlier
ones (inserts prepend). -/
def mapLookup (m : List (String × α)) (key : String) : Option α :=
  match m.find? (fun p => p.1 == key) with
  | some p => some p.2
  | none => none

/-- Batches of at most 100 ids, in order (`for start := 0; start < len(ids);
start += batchSize`), with explicit fuel for structural recursion. -/
def chunksAux (fuel : Nat) (ids : List String) : List (List String) :=
  match fuel, ids with
  | 0, _ => []
  | _, [] => []
  | fuel + 1, l => l.take 100 :: chunksAux fuel (l.drop 100)

/-- The batches `InspectImages`/`InspectVolumes`/`InspectContainers` iterate. -/
def chunks (ids : List String) : List (List String) :=
  chunksAux ids.length ids

/-- Inserting one decoded image entry into the accumulated result map:
fix up labels, key by the normalized id, skip entries with an empty key. -/
def insertImageEntry (acc : List (String × ImageInspect)) (item : ImageInspectRaw) :
    List (String × ImageInspect) :=
  let fixed := fixupImageInspect item
  let key := NormalizeImageID fixed.id
  if key = "" then acc else (key, fixed) :: acc

/-- The batch loop both `InspectImages` and `InspectVolumes` share: one `run`
call per batch, whose decoded entries are folded into the result map with the
kind's insert; a failed batch call fails the whole function. -/
def batchFold (run : List String → Option (List ε))
    (ins : List (String × α) → ε → List (String × α))
    (bs : List (List String)) (init : Option (List (String × α))) :
    Option (List (String × α)) :=
  bs.foldl
    (fun acc batch =>
      match acc with
      | none => none
      | some m =>
        match run batch with
        | none => none
        | some entries => some (entries.foldl ins m))
    init

/-- `docker.InspectImages`: one `run` call per batch; a failed batch call fails
the whole function, a skipped entry does not. -/
def InspectImages (run : List String → Option (List ImageInspectRaw)) (ids : List String) :
    Option (List (String × ImageInspect)) :=
  batchFold run insertImageEntry (chunks ids) (some [])

/-- Inserting one decoded volume entry into the accumulated result map:
key by `Name`, skip entries with an empty name. -/
def insertVolumeEntry (acc : List (String × VolumeInspect)) (item : VolumeInspect) :
    List (String × VolumeInspect) :=
  if item.name = "" then acc else (item.name, item) :: acc

/-- `docker.InspectVolumes`: one `run` call per batch; a failed batch call
fails the whole function, a skipped entry does not. -/
def InspectVolumes (run : List String → Option (List VolumeInspect)) (names : List String) :
    Option (List (String × VolumeInspect)) :=
  batchFold run insertVolumeEntry (chunks names) (some [])

/-! ### C1: the `sweep.protect=true` label forces category `protected` -/

/-- C1: for every resource of any of the four kinds, if its label mapping
contains `sweep.protect=true` then the categorization function returns
category `protected` with protect-reason "protected by label", regardless of
the resource's state, in-use status, name, or any other attribute. -/
theorem protect_label_forces_protected
    (labels : LabelMap) (h : lookupLabel labels LabelProtect = "true") :
    (∀ (c : Container) (cfg : Config),
        categorizeContainer c labels cfg = (CategoryProtected, "protected by label")) ∧
    (∀ (img : Image) (inUse : Bool) (cfg : Config),
        categorizeImage img inUse labels cfg = (CategoryProtected, "protected by label")) ∧
    (∀ (vol : Volume) (inUse : Bool) (cfg : Config),
        categorizeVolume vol inUse labels cfg = (CategoryProtected, "protected by label")) ∧
    (∀ (net : Network) (inUse : Bool) (cfg : Config),
        categorizeNetwork net inUse labels cfg = (CategoryProtected, "protected by label")) := by
  refine ⟨?_, ?_, ?_, ?_⟩ <;> intros <;>
    simp [categorizeContainer, categorizeImage, categorizeVolume, categorizeNetwork, h]

/-- C1 witness: a protected-by-label running container, concretely. -/
theorem protect_label_forces_protected_witness :
    lookupLabel [("sweep.protect", "true")] LabelProtect = "true" ∧
    categorizeContainer ⟨"cid", "/web", "nginx", "running", "Up 2 days", 0, "", []⟩
        [("sweep.protect", "true")] DefaultConfig =
      (CategoryProtected, "protected by label") :=
  ⟨by decide, (protect_label_forces_protected _ (by decide)).1 _ _⟩

/-! ### C5: container categorization by state -/

/-- C5: for every container without the `sweep.protect=true` label,
categorization is determined by its state: `running`/`paused`/`restarting`
give `protected`, `exited`/`dead`/`created` give `suggested`, and any other
state gives `unused`. -/
theorem categorizeContainer_by_state (c : Container) (labels : LabelMap) (cfg : Config)
    (h : lookupLabel labels LabelProtect ≠ "true") :
    ((c.state = "running" ∨ c.state = "paused" ∨ c.state = "restarting") →
        (categorizeContainer c labels cfg).1 = CategoryProtected) ∧
    ((c.state = "exited" ∨ c.state = "dead" ∨ c.state = "created") →
        (categorizeContainer c labels cfg).1 = CategorySuggested) ∧
    (c.state ∉ (["running", "paused", "restarting", "exited", "dead", "created"] :
        List String) →
        (categorizeContainer c labels cfg).1 = CategoryUnused) := by
  refine ⟨?_, ?_, ?_⟩
  · rintro (hs | hs | hs) <;> simp [categorizeContainer, h, hs]
  · rintro (hs | hs | hs) <;> simp [categorizeContainer, h, hs, CategoryProtected,
      CategorySuggested]
  · intro hs
    simp only [List.mem_cons, List.not_mem_nil, or_false, not_or] at hs
    obtain ⟨h1, h2, h3, h4, h5, h6⟩ := hs
    simp [categorizeContainer, h, h1, h2, h3, h4, h5, h6]

/-- C5 witness: a dead container without the protect label is suggested. -/
theorem categorizeContainer_by_state_witness :
    lookupLabel [] LabelProtect ≠ "true" ∧
    (categorizeContainer ⟨"cid", "/db", "postgres", "dead", "", 0, "", []⟩ [] DefaultConfig).1 =
      CategorySuggested :=
  ⟨by decide,
    (categorizeContainer_by_state ⟨"cid", "/db", "postgres", "dead", "", 0, "", []⟩ []
        DefaultConfig (by decide)).2.1 (Or.inr (Or.inl rfl))⟩

/-! ### C6: `IsProtected`/`IsSuggested` are exactly category equality -/

/-- C6: for every resource record of every kind, `IsProtected` returns true
iff the stored category is `protected`, and `IsSuggested` returns true iff the
stored category is `suggested`; no other attribute (labels included) enters. -/
theorem isProtected_isSuggested_iff_category :
    (∀ r : ContainerResource,
        (r.IsProtected = true ↔ r.category = CategoryProtected) ∧
        (r.IsSuggested = true ↔ r.category = CategorySuggested)) ∧
    (∀ r : ImageResource,
        (r.IsProtected = true ↔ r.category = CategoryProtected) ∧
        (r.IsSuggested = true ↔ r.category = CategorySuggested)) ∧
    (∀ r : VolumeResource,
        (r.IsProtected = true ↔ r.category = CategoryProtected) ∧
        (r.IsSuggested = true ↔ r.category = CategorySuggested)) ∧
    (∀ r : NetworkResource,
        (r.IsProtected = true ↔ r.category = CategoryProtected) ∧
        (r.IsSuggested = true ↔ r.category = CategorySuggested)) := by
  refine ⟨fun r => ?_, fun r => ?_, fun r => ?_, fun r => ?_⟩ <;>
    constructor <;>
      simp [ContainerResource.IsProtected, ContainerResource.IsSuggested,
        ImageResource.IsProtected, ImageResource.IsSuggested,
        VolumeResource.IsProtected, VolumeResource.IsSuggested,
        NetworkResource.IsProtected, NetworkResource.IsSuggested]

/-! ### C7: the anonymous-volume name shape -/

/-- Modelled from the spec's words: a "hex character" in the usual sense,
including uppercase digits (`0`–`9`, `a`–`f`, `A`–`F`).  Used only to state
the claim as written, for comparison with `IsAnonymousVolume` from the
source. -/
def claimHexDigit (c : Char) : Bool :=
  (('0' ≤ c ∧ c ≤ '9') ∨ ('a' ≤ c ∧ c ≤ 'f') ∨ ('A' ≤ c ∧ c ≤ 'F') : Prop)

/-- C7 counterexample: a name of exactly 64 hex characters (64 times `'A'`)
for which `IsAnonymousVolume` returns `false` — the source accepts only
lowercase hex digits. -/
theorem isAnonymousVolume_uppercase_hex_counterexample :
    (String.mk (List.replicate 64 'A')).length = 64 ∧
    (String.mk (List.replicate 64 'A')).data.all claimHexDigit = true ∧
    IsAnonymousVolume (String.mk (List.replicate 64 'A')) = false := by
  decide

/-- C7 (amended): `IsAnonymousVolume name` returns true iff `name` is exactly
64 characters, each a decimal digit or a lowercase `a`–`f` hex digit; any
other name (length ≠ 64 or containing a character outside those ranges)
returns false. -/
theorem isAnonymousVolume_iff (name : String) :
    IsAnonymousVolume name = true ↔
      name.length = 64 ∧
        ∀ c ∈ name.data, ('0' ≤ c ∧ c ≤ '9') ∨ ('a' ≤ c ∧ c ≤ 'f') := by
  unfold IsAnonymousVolume
  split_ifs with h
  · simp only [Bool.false_eq_true, false_iff, not_and]
    intro hlen
    exact absurd hlen h
  · push_neg at h
    simp [h, List.all_eq_true]

/-! ### Helper lemmas about the deletion orchestrator -/

/-- `deleteAll` issues exactly one removal call per resource, in order. -/
theorem deleteAll_calls (env : RemoveEnv) (rs : List Res) (hist : List Call) :
    (deleteAll env rs hist).2.2 = rs.map resCall := by
  induction rs generalizing hist with
  | nil => rfl
  | cons r rest ih =>
    simp only [deleteAll, List.map_cons]
    cases henv : env hist r.rtype r.id with
    | none => simp [ih]
    | some msg =>
      by_cases hrem : isAlreadyRemovedError r.rtype msg <;> simp [hrem, ih]

/-- `deleteAll` accounts every resource exactly once. -/
theorem deleteAll_count (env : RemoveEnv) (rs : List Res) (hist : List Call) :
    (deleteAll env rs hist).1 + (deleteAll env rs hist).2.1.length = rs.length := by
  induction rs generalizing hist with
  | nil => rfl
  | cons r rest ih =>
    simp only [deleteAll, List.length_cons]
    cases henv : env hist r.rtype r.id with
    | none =>
      have := ih (hist ++ [resCall r])
      simp only []
      omega
    | some msg =>
      have := ih (hist ++ [resCall r])
      by_cases hrem : isAlreadyRemovedError r.rtype msg <;> simp [hrem] <;> omega

/-- One retry pass issues exactly one removal call per pending resource. -/
theorem deletePass_calls (env : RemoveEnv) (rs : List Res) (hist : List Call) :
    (deletePass env rs hist).2.2.2 = rs.map resCall := by
  induction rs generalizing hist with
  | nil => rfl
  | cons r rest ih =>
    simp only [deletePass, List.map_cons]
    cases henv : env hist r.rtype r.id with
    | none => simp [ih]
    | some msg =>
      by_cases hrem : isAlreadyRemovedError r.rtype msg
      · simp [hrem, ih]
      · by_cases hdep : isDependencyError msg <;> simp [hrem, hdep, ih]

/-- One retry pass sends every pending resource to exactly one of: deleted,
error list, or the next pass. -/
theorem deletePass_count (env : RemoveEnv) (rs : List Res) (hist : List Call) :
    (deletePass env rs hist).1 + (deletePass env rs hist).2.1.length +
      (deletePass env rs hist).2.2.1.length = rs.length := by
  induction rs generalizing hist with
  | nil => rfl
  | cons r rest ih =>
    simp only [deletePass, List.length_cons]
    cases henv : env hist r.rtype r.id with
    | none =>
      have := ih (hist ++ [resCall r])
      simp only []
      omega
    | some msg =>
      have := ih (hist ++ [resCall r])
      by_cases hrem : isAlreadyRemovedError r.rtype msg
      · simp [hrem]; omega
      · by_cases hdep : isDependencyError msg <;> simp [hrem, hdep] <;> omega

/-- The resources a pass defers all come from the pending list. -/
theorem deletePass_failed_sub (env : RemoveEnv) (rs : List Res) (hist : List Call) :
    ∀ r ∈ (deletePass env rs hist).2.2.1, r ∈ rs := by
  induction rs generalizing hist with
  | nil => intro r hr; exact absurd hr (by simp [deletePass])
  | cons r rest ih =>
    intro x hx
    simp only [deletePass] at hx
    cases henv : env hist r.rtype r.id with
    | none =>
      simp only [henv] at hx
      exact List.mem_cons_of_mem _ (ih _ x hx)
    | some msg =>
      simp only [henv] at hx
      by_cases hrem : isAlreadyRemovedError r.rtype msg
      · simp only [hrem, if_true] at hx
        exact List.mem_cons_of_mem _ (ih _ x hx)
      · by_cases hdep : isDependencyError msg
        · simp only [hrem, hdep, if_false, if_true] at hx
          rcases List.mem_cons.mp hx with h | h
          · exact h ▸ List.mem_cons_self r rest
          · exact List.mem_cons_of_mem _ (ih _ x h)
        · simp only [hrem, hdep, if_false] at hx
          exact List.mem_cons_of_mem _ (ih _ x hx)

/-- The retry loop accounts every pending image exactly once. -/
theorem retryGo_count (env : RemoveEnv) (fuel : Nat) (rs : List Res) (hist : List Call) :
    (retryGo env fuel rs hist).1 + (retryGo env fuel rs hist).2.1.length = rs.length := by
  induction fuel generalizing rs hist with
  | zero => simp [retryGo]
  | succ fuel ih =>
    by_cases hrs : rs = []
    · simp [retryGo, hrs]
    · have hpass := deletePass_count env rs hist
      have hrec := ih (deletePass env rs hist).2.2.1 (hist ++ (deletePass env rs hist).2.2.2)
      simp only [retryGo, hrs, if_false, List.length_append]
      omega

/-- Every removal call the retry loop issues targets a pending resource's
type. -/
theorem retryGo_calls_kind (env : RemoveEnv) (fuel : Nat) (rs : List Res)
    (hist : List Call) (k : String) (hk : ∀ r ∈ rs, r.rtype = k) :
    ∀ c ∈ (retryGo env fuel rs hist).2.2, c.kind = k := by
  induction fuel generalizing rs hist with
  | zero => intro c hc; exact absurd hc (by simp [retryGo])
  | succ fuel ih =>
    intro c hc
    by_cases hrs : rs = []
    · simp [retryGo, hrs] at hc
    · simp only [retryGo, hrs, if_false, List.mem_append] at hc
      rcases hc with h | h
      · rw [deletePass_calls] at h
        obtain ⟨r, hr, hrc⟩ := List.mem_map.mp h
        rw [← hrc]
        exact hk r hr
      · exact ih _ _ (fun r hr => hk r (deletePass_failed_sub env rs hist r hr)) c h

/-- Rank of a resource kind in the fixed deletion order. -/
def kindRank (kind : String) : Nat :=
  if kind = TypeContainer then 0
  else if kind = TypeNetwork then 1
  else if kind = TypeVolume then 2
  else if kind = TypeImage then 3
  else 4

/-- Concatenating four segments of constant kinds with increasing ranks gives
a rank-monotone call list. -/
theorem pairwise_rank_of_segments (A B C D : List Call)
    (hA : ∀ c ∈ A, c.kind = TypeContainer) (hB : ∀ c ∈ B, c.kind = TypeNetwork)
    (hC : ∀ c ∈ C, c.kind = TypeVolume) (hD : ∀ c ∈ D, c.kind = TypeImage) :
    (A ++ (B ++ (C ++ D))).Pairwise (fun a b => kindRank a.kind ≤ kindRank b.kind) := by
  have rank_of : ∀ (l : List Call) (k : String), (∀ c ∈ l, c.kind = k) →
      ∀ c ∈ l, kindRank c.kind = kindRank k := by
    intro l k hl c hc; rw [hl c hc]
  have const_pairwise : ∀ (l : List Call) (k : String), (∀ c ∈ l, c.kind = k) →
      l.Pairwise (fun a b => kindRank a.kind ≤ kindRank b.kind) := by
    intro l k hl
    refine List.pairwise_of_forall_mem_list ?_
    intro a ha b hb
    rw [hl a ha, hl b hb]
  rw [List.pairwise_append]
  refine ⟨const_pairwise A _ hA, ?_, ?_⟩
  · rw [List.pairwise_append]
    refine ⟨const_pairwise B _ hB, ?_, ?_⟩
    · rw [List.pairwise_append]
      refine ⟨const_pairwise C _ hC, const_pairwise D _ hD, ?_⟩
      intro a ha b hb
      rw [hC a ha, hD b hb]
      decide
    · intro a ha b hb
      rw [hB a ha]
      rcases List.mem_append.mp hb with h | h
      · rw [hC b h]; decide
      · rw [hD b h]; decide
  · intro a ha b hb
    rw [hA a ha]
    simp [kindRank]

/-- The full call list of `DeleteResources` is rank-monotone. -/
theorem deleteResources_calls_pairwise (env : RemoveEnv) (rs : List Res) :
    (DeleteResources env rs).2.2.Pairwise
      (fun a b => kindRank a.kind ≤ kindRank b.kind) := by
  have kind_of_filter : ∀ (k : String) (c : Call),
      c ∈ (rs.filter (fun r => r.rtype == k)).map resCall → c.kind = k := by
    intro k c hc
    obtain ⟨r, hr, hrc⟩ := List.mem_map.mp hc
    have := (List.mem_filter.mp hr).2
    rw [← hrc, resCall]
    exact eq_of_beq this
  simp only [DeleteResources, List.append_assoc]
  refine pairwise_rank_of_segments _ _ _ _ ?_ ?_ ?_ ?_
  · intro c hc
    rw [deleteAll_calls] at hc
    exact kind_of_filter TypeContainer c hc
  · intro c hc
    rw [deleteAll_calls] at hc
    exact kind_of_filter TypeNetwork c hc
  · intro c hc
    rw [deleteAll_calls] at hc
    exact kind_of_filter TypeVolume c hc
  · intro c hc
    refine retryGo_calls_kind env 3 _ _ TypeImage ?_ c hc
    intro r hr
    exact eq_of_beq (List.mem_filter.mp hr).2

/-! ### C2: deletion order is containers, networks, volumes, images -/

/-- C2: in the sequence of removal calls `DeleteResources` issues, every
container call comes before every network call, every network call before
every volume call, and every volume call before every image call — for any
removal environment and any input selection.  (`kindRank` orders the four
kinds container < network < volume < image.) -/
theorem deleteResources_kind_ordering (env : RemoveEnv) (rs : List Res)
    (i j : Nat) (hij : i < j) (hj : j < (DeleteResources env rs).2.2.length) :
    kindRank (((DeleteResources env rs).2.2).get ⟨i, Nat.lt_trans hij hj⟩).kind ≤
      kindRank (((DeleteResources env rs).2.2).get ⟨j, hj⟩).kind := by
  have hp := deleteResources_calls_pairwise env rs
  exact List.pairwise_iff_get.mp hp ⟨i, Nat.lt_trans hij hj⟩ ⟨j, hj⟩ hij

/-- C2 witness: with a mixed network-then-container selection, the container
removal call is issued first. -/
theorem deleteResources_kind_ordering_witness :
    (0 : Nat) < 1 ∧
    1 < (DeleteResources (fun _ _ _ => none)
        [⟨"network", "n1", "n1"⟩, ⟨"container", "c9", "c9"⟩]).2.2.length ∧
    kindRank (((DeleteResources (fun _ _ _ => none)
        [⟨"network", "n1", "n1"⟩, ⟨"container", "c9", "c9"⟩]).2.2).get
        ⟨0, by decide⟩).kind ≤
      kindRank (((DeleteResources (fun _ _ _ => none)
        [⟨"network", "n1", "n1"⟩, ⟨"container", "c9", "c9"⟩]).2.2).get
        ⟨1, by decide⟩).kind :=
  ⟨by decide, by decide,
    deleteResources_kind_ordering (fun _ _ _ => none)
      [⟨"network", "n1", "n1"⟩, ⟨"container", "c9", "c9"⟩] 0 1 (by decide) (by decide)⟩

/-! ### C10: every selected resource is accounted for exactly once -/

/-- Splitting a list of resources of the four known types by type preserves
the total count. -/
theorem four_filter_length (rs : List Res)
    (h : ∀ r ∈ rs, r.rtype = TypeContainer ∨ r.rtype = TypeImage ∨
        r.rtype = TypeVolume ∨ r.rtype = TypeNetwork) :
    (rs.filter (fun r => r.rtype == TypeContainer)).length +
      (rs.filter (fun r => r.rtype == TypeNetwork)).length +
      (rs.filter (fun r => r.rtype == TypeVolume)).length +
      (rs.filter (fun r => r.rtype == TypeImage)).length = rs.length := by
  induction rs with
  | nil => rfl
  | cons r rest ih =>
    have ih' := ih (fun x hx => h x (List.mem_cons_of_mem _ hx))
    have hr := h r (List.mem_cons_self _ _)
    simp only [TypeContainer, TypeImage, TypeVolume, TypeNetwork] at ih' hr ⊢
    rcases hr with h1 | h1 | h1 | h1 <;>
      simp [List.filter_cons, h1] <;> omega

/-- C10: for every input whose resources all have one of the four known
types, `DeleteResources` returns a deleted count and an error list with
`deleted + errors.length = input.length`: every selected resource is
accounted for exactly once (a retried image contributes at most one final
error). -/
theorem deleteResources_accounts_every_resource (env : RemoveEnv) (rs : List Res)
    (h : ∀ r ∈ rs, r.rtype = TypeContainer ∨ r.rtype = TypeImage ∨
        r.rtype = TypeVolume ∨ r.rtype = TypeNetwork) :
    (DeleteResources env rs).1 + (DeleteResources env rs).2.1.length = rs.length := by
  have hsplit := four_filter_length rs h
  simp only [DeleteResources, deleteImagesWithRetry, List.length_append]
  set A := rs.filter (fun r => r.rtype == TypeContainer) with hA
  set B := rs.filter (fun r => r.rtype == TypeNetwork) with hB
  set C := rs.filter (fun r => r.rtype == TypeVolume) with hC
  set D := rs.filter (fun r => r.rtype == TypeImage) with hD
  set t1 := (deleteAll env A []).2.2 with ht1
  set t2 := (deleteAll env B t1).2.2 with ht2
  set t3 := (deleteAll env C (t1 ++ t2)).2.2 with ht3
  have h1 := deleteAll_count env A []
  have h2 := deleteAll_count env B t1
  have h3 := deleteAll_count env C (t1 ++ t2)
  have h4 := retryGo_count env 3 D (t1 ++ t2 ++ t3)
  omega

/-- C10 witness: a mixed selection of the four kinds where one removal fails
outright still accounts for all four resources. -/
theorem deleteResources_accounts_every_resource_witness :
    (∀ r ∈ ([⟨"container", "c1", "c1"⟩, ⟨"image", "i1", "i1"⟩,
        ⟨"volume", "v1", "v1"⟩, ⟨"network", "n1", "n1"⟩] : List Res),
      r.rtype = TypeContainer ∨ r.rtype = TypeImage ∨
        r.rtype = TypeVolume ∨ r.rtype = TypeNetwork) ∧
    (DeleteResources (fun _ k _ => if k == "volume" then some "device busy" else none)
        [⟨"container", "c1", "c1"⟩, ⟨"image", "i1", "i1"⟩,
          ⟨"volume", "v1", "v1"⟩, ⟨"network", "n1", "n1"⟩]).1 +
      (DeleteResources (fun _ k _ => if k == "volume" then some "device busy" else none)
        [⟨"container", "c1", "c1"⟩, ⟨"image", "i1", "i1"⟩,
          ⟨"volume", "v1", "v1"⟩, ⟨"network", "n1", "n1"⟩]).2.1.length = 4 :=
  ⟨by decide,
    deleteResources_accounts_every_resource
      (fun _ k _ => if k == "volume" then some "device busy" else none)
      [⟨"container", "c1", "c1"⟩, ⟨"image", "i1", "i1"⟩,
        ⟨"volume", "v1", "v1"⟩, ⟨"network", "n1", "n1"⟩] (by decide)⟩

/-! ### C3: "already removed" failures count as idempotent successes -/

/-- A string starting with `p ++ q` starts with `p`. -/
theorem charsStartWith_append (s p q : List Char)
    (h : charsStartWith s (p ++ q) = true) : charsStartWith s p = true := by
  induction p generalizing s with
  | nil => cases s <;> rfl
  | cons c cs ih =>
    cases s with
    | nil => simp [charsStartWith] at h
    | cons a as =>
      simp only [List.cons_append, charsStartWith, Bool.and_eq_true] at h ⊢
      exact ⟨h.1, ih as h.2⟩

/-- A string containing `p ++ q` contains `p`. -/
theorem charsContain_append_left (s p q : List Char)
    (h : charsContain s (p ++ q) = true) : charsContain s p = true := by
  induction s with
  | nil =>
    cases p with
    | nil => rfl
    | cons c cs => simp [charsContain] at h
  | cons c cs ih =>
    simp only [charsContain, Bool.or_eq_true] at h ⊢
    rcases h with h | h
    · exact Or.inl (charsStartWith_append _ _ _ h)
    · exact Or.inr (ih h)

/-- A message containing "image not known" contains "image". -/
theorem hasSub_image_of_image_not_known (s : String)
    (h : hasSub s "image not known" = true) : hasSub s "image" = true := by
  unfold hasSub at h ⊢
  have hsplit : ("image not known" : String).data = ("image" : String).data ++ (" not known" : String).data := by decide
  rw [hsplit] at h
  exact charsContain_append_left _ _ _ h

/-- C3: a removal failure whose message the code classifies as
"already removed" is treated as success: both in a `deleteAll` phase and in an
image retry pass it increments the deleted count by one and appends no error
entry (and defers nothing); and the classifier itself is exactly the
kind-specific substring match the claim describes — "not found" or "no such"
combined with the kind name, plus, for images only, "image not known". -/
theorem alreadyRemoved_is_idempotent_success
    (env : RemoveEnv) (r : Res) (rest : List Res) (hist : List Call) (msg : String)
    (hfail : env hist r.rtype r.id = some msg)
    (hclass : isAlreadyRemovedError r.rtype msg = true) :
    ((deleteAll env (r :: rest) hist).1 =
        (deleteAll env rest (hist ++ [resCall r])).1 + 1 ∧
      (deleteAll env (r :: rest) hist).2.1 =
        (deleteAll env rest (hist ++ [resCall r])).2.1) ∧
    ((deletePass env (r :: rest) hist).1 =
        (deletePass env rest (hist ++ [resCall r])).1 + 1 ∧
      (deletePass env (r :: rest) hist).2.1 =
        (deletePass env rest (hist ++ [resCall r])).2.1 ∧
      (deletePass env (r :: rest) hist).2.2.1 =
        (deletePass env rest (hist ++ [resCall r])).2.2.1) ∧
    (∀ m : String,
      isAlreadyRemovedError TypeContainer m =
        ((hasSub (toLowerStr m) "not found" || hasSub (toLowerStr m) "no such") &&
          hasSub (toLowerStr m) "container") ∧
      isAlreadyRemovedError TypeVolume m =
        ((hasSub (toLowerStr m) "not found" || hasSub (toLowerStr m) "no such") &&
          hasSub (toLowerStr m) "volume") ∧
      isAlreadyRemovedError TypeNetwork m =
        ((hasSub (toLowerStr m) "not found" || hasSub (toLowerStr m) "no such") &&
          hasSub (toLowerStr m) "network") ∧
      isAlreadyRemovedError TypeImage m =
        (((hasSub (toLowerStr m) "not found" || hasSub (toLowerStr m) "no such") &&
          hasSub (toLowerStr m) "image") || hasSub (toLowerStr m) "image not known")) := by
  refine ⟨⟨?_, ?_⟩, ⟨?_, ?_, ?_⟩, ?_⟩
  · simp [deleteAll, hfail, hclass]
  · simp [deleteAll, hfail, hclass]
  · simp [deletePass, hfail, hclass]
  · simp [deletePass, hfail, hclass]
  · simp [deletePass, hfail, hclass]
  · intro m
    refine ⟨?_, ?_, ?_, ?_⟩
    · by_cases hc : (hasSub (toLowerStr m) "not found" || hasSub (toLowerStr m) "no such") = true <;>
        simp [isAlreadyRemovedError, hc, TypeContainer, TypeImage, TypeVolume, TypeNetwork]
    · by_cases hc : (hasSub (toLowerStr m) "not found" || hasSub (toLowerStr m) "no such") = true <;>
        simp [isAlreadyRemovedError, hc, TypeContainer, TypeImage, TypeVolume, TypeNetwork]
    · by_cases hc : (hasSub (toLowerStr m) "not found" || hasSub (toLowerStr m) "no such") = true <;>
        simp [isAlreadyRemovedError, hc, TypeContainer, TypeImage, TypeVolume, TypeNetwork]
    · by_cases hc : (hasSub (toLowerStr m) "not found" || hasSub (toLowerStr m) "no such") = true
      · by_cases hi : hasSub (toLowerStr m) "image" = true
        · simp [isAlreadyRemovedError, hc, hi, TypeImage]
        · have hink : hasSub (toLowerStr m) "image not known" = false := by
            cases hk : hasSub (toLowerStr m) "image not known" with
            | false => rfl
            | true => exact absurd (hasSub_image_of_image_not_known _ hk) (by simp [hi])
          simp [isAlreadyRemovedError, hc, hi, hink, TypeImage]
      · simp [isAlreadyRemovedError, hc, TypeImage]

/-- C3 witness: a volume removal failing with "no such volume" counts as one
deletion and produces no error entry. -/
theorem alreadyRemoved_is_idempotent_success_witness :
    (fun (_ : List Call) (_ _ : String) =>
        (some "no such volume" : Option String)) [] "volume" "v1" = some "no such volume" ∧
    isAlreadyRemovedError "volume" "no such volume" = true ∧
    (deleteAll (fun _ _ _ => some "no such volume") [⟨"volume", "v1", "v1"⟩] []).1 = 1 ∧
    (deleteAll (fun _ _ _ => some "no such volume") [⟨"volume", "v1", "v1"⟩] []).2.1 = [] := by
  refine ⟨rfl, by decide, ?_, ?_⟩
  · have h := (alreadyRemoved_is_idempotent_success (fun _ _ _ => some "no such volume")
      ⟨"volume", "v1", "v1"⟩ [] [] "no such volume" rfl (by decide)).1.1
    simpa using h
  · have h := (alreadyRemoved_is_idempotent_success (fun _ _ _ => some "no such volume")
      ⟨"volume", "v1", "v1"⟩ [] [] "no such volume" rfl (by decide)).1.2
    simpa using h

/-! ### C4: image deletion retry protocol -/

/-- Removal environment of the C4 scenario: container `c1` always fails with
"no such container", image `i1` always fails with "has dependent child
images", image `i2` succeeds. -/
def scenarioEnv : RemoveEnv := fun _ kind id =>
  if kind == "container" && id == "c1" then some "no such container"
  else if kind == "image" && id == "i1" then some "has dependent child images"
  else none

/-- Removal environment that always reports a dependency conflict. -/
def depEnv : RemoveEnv := fun _ _ _ => some "has dependent child images"

/-- C4: image deletion runs in at most 3 passes.  An image whose removal
always fails with a dependency-conflict message is attempted once in each of
the 3 passes, contributes no per-pass error, and after the pass budget yields
the single final error "has dependent images (not deleted)"; an image whose
removal fails with any other message is recorded immediately and attempted
only once.  In the concrete scenario {container c1 failing "no such
container", image i1 always failing "has dependent child images", image i2
succeeding}, the orchestrator returns deleted = 2 and exactly the one error
"i1: has dependent images (not deleted)". -/
theorem imageRetry_three_passes :
    ((DeleteResources scenarioEnv [⟨"container", "c1", "c1"⟩, ⟨"image", "i1", "i1"⟩,
        ⟨"image", "i2", "i2"⟩]).1 = 2 ∧
      (DeleteResources scenarioEnv [⟨"container", "c1", "c1"⟩, ⟨"image", "i1", "i1"⟩,
        ⟨"image", "i2", "i2"⟩]).2.1 = ["i1: has dependent images (not deleted)"]) ∧
    (∀ (env : RemoveEnv) (r : Res) (hist : List Call) (msg : String),
      (∀ h, env h r.rtype r.id = some msg) →
      isDependencyError msg = true →
      isAlreadyRemovedError r.rtype msg = false →
      deleteImagesWithRetry env [r] hist =
        (0, [r.displayName ++ ": has dependent images (not deleted)"],
          [resCall r, resCall r, resCall r])) ∧
    (∀ (env : RemoveEnv) (r : Res) (hist : List Call) (msg : String),
      env hist r.rtype r.id = some msg →
      isDependencyError msg = false →
      isAlreadyRemovedError r.rtype msg = false →
      deleteImagesWithRetry env [r] hist =
        (0, [r.displayName ++ ": " ++ msg], [resCall r])) := by
  refine ⟨⟨by decide, by decide⟩, ?_, ?_⟩
  · intro env r hist msg hfail hdep hrem
    simp [deleteImagesWithRetry, retryGo, deletePass, hfail, hdep, hrem]
  · intro env r hist msg hfail hdep hrem
    simp [deleteImagesWithRetry, retryGo, deletePass, hfail, hdep, hrem]

/-- C4 witness: a single image whose removal always reports a dependency
conflict is attempted three times and yields exactly one final error. -/
theorem imageRetry_three_passes_witness :
    isDependencyError "has dependent child images" = true ∧
    isAlreadyRemovedError "image" "has dependent child images" = false ∧
    deleteImagesWithRetry depEnv [⟨"image", "i9", "i9"⟩] [] =
      (0, ["i9: has dependent images (not deleted)"],
        [⟨"image", "i9"⟩, ⟨"image", "i9"⟩, ⟨"image", "i9"⟩]) :=
  ⟨by decide, by decide,
    imageRetry_three_passes.2.1 depEnv ⟨"image", "i9", "i9"⟩ []
      "has dependent child images" (fun _ => rfl) (by decide) (by decide)⟩

/-! ### C8: age-filter semantics, uniform over the four analyzers -/

/-- C8: with a minimum-age threshold configured (and the unrelated
kind-specific filters off), every analyzer excludes a resource iff its derived
creation timestamp is known (non-zero) and `now - createdAt < threshold`; a
resource with unknown (zero) timestamp is never excluded by the age filter;
and the filter never changes a record's category — every record an analyzer
returns carries exactly the category the kind's categorization policy assigns
to its fields. -/
theorem age_filter_semantics (cfg : Config) (now : Int)
    (holder : 0 < cfg.olderThan)
    (hexited : cfg.exited = false) (hminsize : ¬ 0 < cfg.minSize)
    (hdangling : cfg.dangling = false) (hnodangling : cfg.noDangling = false)
    (hanon : cfg.anonymous = false) :
    (∀ (iB iO : String → Option ContainerInspect) (c : Container),
      analyzeContainerOne cfg now iB iO c = none ↔
        (containerDerived iB iO c).2 ≠ 0 ∧
          now - (containerDerived iB iO c).2 < cfg.olderThan) ∧
    (∀ (iB iO : String → Option ContainerInspect) (cs : List Container),
      ∀ r ∈ AnalyzeContainersWithConfig cfg now iB iO cs,
        r.category = (categorizeContainer r.container r.labels cfg).1) ∧
    (∀ (inUse : String → Bool) (iB iO : String → Option ImageInspect)
        (needed : String → Bool) (img : Image),
      analyzeImageOne cfg now inUse iB iO needed img = none ↔
        (imageDerived iB iO needed img).2.2 ≠ 0 ∧
          now - (imageDerived iB iO needed img).2.2 < cfg.olderThan) ∧
    (∀ (images : List Image) (inUse : String → Bool)
        (batch : List String → Option (String → Option ImageInspect))
        (iO : String → Option ImageInspect),
      ∀ r ∈ AnalyzeImagesWithConfig cfg now images inUse batch iO,
        r.category = (categorizeImage r.image r.inUse r.labels cfg).1) ∧
    (∀ (iB iO : String → Option VolumeInspect) (inUse : String → Bool) (v : Volume),
      analyzeVolumeOne cfg now iB iO inUse v = none ↔
        (volumeDerived iB iO v).2.1 ≠ 0 ∧
          now - (volumeDerived iB iO v).2.1 < cfg.olderThan) ∧
    (∀ (iB iO : String → Option VolumeInspect) (inUse : String → Bool)
        (vs : List Volume),
      ∀ r ∈ AnalyzeVolumesWithConfig cfg now iB iO inUse vs,
        r.category = (categorizeVolume r.volume r.inUse r.labels cfg).1) ∧
    (∀ (iO : String → Option NetworkInspect) (inUse : String → Bool) (n : Network),
      analyzeNetworkOne cfg now iO inUse n = none ↔
        (networkDerived iO n).2.1 ≠ 0 ∧
          now - (networkDerived iO n).2.1 < cfg.olderThan) ∧
    (∀ (iO : String → Option NetworkInspect) (inUse : String → Bool)
        (ns : List Network),
      ∀ r ∈ AnalyzeNetworksWithConfig cfg now iO inUse ns,
        r.category = (categorizeNetwork r.network r.inUse r.labels cfg).1) := by
  refine ⟨?_, ?_, ?_, ?_, ?_, ?_, ?_, ?_⟩
  · intro iB iO c
    simp only [analyzeContainerOne]
    split_ifs with h1 h2
    · simp only [true_iff]
      exact ⟨h1.2.1, h1.2.2⟩
    · exact absurd h2.1 (by simp [hexited])
    · simp only [reduceCtorEq, false_iff, not_and]
      intro hne hlt
      exact h1 ⟨holder, hne, hlt⟩
  · intro iB iO cs r hr
    simp only [AnalyzeContainersWithConfig, List.mem_filterMap] at hr
    obtain ⟨c, _, hstep⟩ := hr
    simp only [analyzeContainerOne] at hstep
    split_ifs at hstep
    · injection hstep with h
      subst h
      rfl
  · intro inUse iB iO needed img
    simp only [analyzeImageOne]
    split_ifs with h1 h2 h3 h4
    · simp only [true_iff]
      exact ⟨h1.2.1, h1.2.2⟩
    · exact absurd h2.1 hminsize
    · exact absurd h3.1 (by simp [hdangling])
    · exact absurd h4.1 (by simp [hnodangling])
    · simp only [reduceCtorEq, false_iff, not_and]
      intro hne hlt
      exact h1 ⟨holder, hne, hlt⟩
  · intro images inUse batch iO r hr
    simp only [AnalyzeImagesWithConfig, List.mem_filterMap] at hr
    obtain ⟨img, _, hstep⟩ := hr
    simp only [analyzeImageOne] at hstep
    split_ifs at hstep
    all_goals injection hstep with h
    all_goals subst h
    all_goals rfl
  · intro iB iO inUse v
    simp only [analyzeVolumeOne]
    split_ifs with h1 h2
    · simp only [true_iff]
      exact ⟨h1.2.1, h1.2.2⟩
    · exact absurd h2.1 (by simp [hanon])
    · simp only [reduceCtorEq, false_iff, not_and]
      intro hne hlt
      exact h1 ⟨holder, hne, hlt⟩
  · intro iB iO inUse vs r hr
    simp only [AnalyzeVolumesWithConfig, List.mem_filterMap] at hr
    obtain ⟨v, _, hstep⟩ := hr
    simp only [analyzeVolumeOne] at hstep
    split_ifs at hstep
    · injection hstep with h
      subst h
      rfl
  · intro iO inUse n
    simp only [analyzeNetworkOne]
    split_ifs with h1
    · simp only [true_iff]
      exact ⟨h1.2.1, h1.2.2⟩
    · simp only [reduceCtorEq, false_iff, not_and]
      intro hne hlt
      exact h1 ⟨holder, hne, hlt⟩
  · intro iO inUse ns r hr
    simp only [AnalyzeNetworksWithConfig, List.mem_filterMap] at hr
    obtain ⟨n, _, hstep⟩ := hr
    simp only [analyzeNetworkOne] at hstep
    split_ifs at hstep
    · injection hstep with h
      subst h
      rfl

/-- C8 witness: with a 100ns threshold at `now = 120`, a container created at
time 50 (age 70) is excluded, while one with unknown creation time is kept. -/
theorem age_filter_semantics_witness :
    (0 : Int) < (100 : Int) ∧
    analyzeContainerOne { olderThan := 100 } 120
      (fun _ => some ⟨"cid", 50, []⟩) (fun _ => none)
      ⟨"cid", "/a", "img", "exited", "", 0, "", []⟩ = none ∧
    analyzeContainerOne { olderThan := 100 } 120
      (fun _ => none) (fun _ => none)
      ⟨"cid", "/a", "img", "exited", "", 0, "", []⟩ ≠ none := by
  refine ⟨by decide, ?_, ?_⟩
  · exact ((age_filter_semantics { olderThan := 100 } 120 (by decide) rfl (by decide)
      rfl rfl rfl).1 (fun _ => some ⟨"cid", 50, []⟩) (fun _ => none)
      ⟨"cid", "/a", "img", "exited", "", 0, "", []⟩).mpr (by decide)
  · intro hnone
    have h := ((age_filter_semantics { olderThan := 100 } 120 (by decide) rfl (by decide)
      rfl rfl rfl).1 (fun _ => none) (fun _ => none)
      ⟨"cid", "/a", "img", "exited", "", 0, "", []⟩).mp hnone
    exact absurd h.1 (by decide)

/-! ### C9: batch inspection tolerates malformed or missing entries -/

/-- A failed accumulator stays failed through the batch loop. -/
theorem batchFold_none (run : List String → Option (List ε))
    (ins : List (String × α) → ε → List (String × α)) (bs : List (List String)) :
    batchFold run ins bs none = none := by
  induction bs with
  | nil => rfl
  | cons b bs ih => exact ih

/-- The batch loop succeeds iff every per-batch `run` call succeeds — entry
contents never make it fail. -/
theorem batchFold_isSome_iff (run : List String → Option (List ε))
    (ins : List (String × α) → ε → List (String × α)) (bs : List (List String))
    (m : List (String × α)) :
    (batchFold run ins bs (some m)).isSome = true ↔
      ∀ b ∈ bs, (run b).isSome = true := by
  induction bs generalizing m with
  | nil => simp [batchFold]
  | cons b bs ih =>
    cases hr : run b with
    | none =>
      have hnone : batchFold run ins (b :: bs) (some m) = none := by
        simp only [batchFold, List.foldl_cons, hr]
        exact batchFold_none run ins bs
      rw [hnone]
      constructor
      · intro hs
        simp at hs
      · intro hall
        have := hall b (List.mem_cons_self _ _)
        rw [hr] at this
        simp at this
    | some es =>
      have heq : batchFold run ins (b :: bs) (some m) =
          batchFold run ins bs (some (es.foldl ins m)) := by
        simp only [batchFold, List.foldl_cons, hr]
      rw [heq, ih]
      simp only [List.mem_cons]
      constructor
      · rintro h b' (rfl | hb')
        · simp [hr]
        · exact h b' hb'
      · intro h b' hb'
        exact h b' (Or.inr hb')

/-- Prepending an entry to the result map preserves every present key. -/
theorem mapLookup_cons_isSome (m : List (String × α)) (k k' : String) (v : α)
    (h : (mapLookup m k).isSome = true) :
    (mapLookup ((k', v) :: m) k).isSome = true := by
  unfold mapLookup at h ⊢
  rw [List.find?_cons]
  cases hk : ((k', v).1 == k) <;> simp [hk, h]

/-- A key-preserving insert, folded over a batch's entries, preserves every
present key. -/
theorem foldl_ins_keeps (ins : List (String × α) → ε → List (String × α))
    (hkeep : ∀ m e k, (mapLookup m k).isSome = true →
      (mapLookup (ins m e) k).isSome = true)
    (es : List ε) (m : List (String × α)) (k : String)
    (h : (mapLookup m k).isSome = true) :
    (mapLookup (es.foldl ins m) k).isSome = true := by
  induction es generalizing m with
  | nil => exact h
  | cons e es ih => exact ih _ (hkeep m e k h)

/-- An entry whose insert establishes key `k` makes `k` present after its
batch's fold, whatever the other entries look like. -/
theorem foldl_ins_adds (ins : List (String × α) → ε → List (String × α))
    (hkeep : ∀ m e k, (mapLookup m k).isSome = true →
      (mapLookup (ins m e) k).isSome = true)
    (es : List ε) (e : ε) (he : e ∈ es) (k : String)
    (hadd : ∀ m0, (mapLookup (ins m0 e) k).isSome = true) (m : List (String × α)) :
    (mapLookup (es.foldl ins m) k).isSome = true := by
  induction es generalizing m with
  | nil => exact absurd he (List.not_mem_nil _)
  | cons e' es ih =>
    rcases List.mem_cons.mp he with rfl | he'
    · exact foldl_ins_keeps ins hkeep es _ k (hadd m)
    · exact ih he' _

/-- The batch loop preserves every key already present in the accumulator. -/
theorem batchFold_keeps (run : List String → Option (List ε))
    (ins : List (String × α) → ε → List (String × α))
    (hkeep : ∀ m e k, (mapLookup m k).isSome = true →
      (mapLookup (ins m e) k).isSome = true)
    (bs : List (List String)) (m m' : List (String × α))
    (h : batchFold run ins bs (some m) = some m') (k : String)
    (hk : (mapLookup m k).isSome = true) : (mapLookup m' k).isSome = true := by
  induction bs generalizing m with
  | nil =>
    injection h with h
    exact h ▸ hk
  | cons b bs ih =>
    cases hr : run b with
    | none =>
      have hnone : batchFold run ins (b :: bs) (some m) = none := by
        simp only [batchFold, List.foldl_cons, hr]
        exact batchFold_none run ins bs
      rw [hnone] at h
      exact absurd h (by simp)
    | some es =>
      have heq : batchFold run ins (b :: bs) (some m) =
          batchFold run ins bs (some (es.foldl ins m)) := by
        simp only [batchFold, List.foldl_cons, hr]
      rw [heq] at h
      exact ih _ h (foldl_ins_keeps ins hkeep es m k hk)

/-- Any decoded entry of any successful batch whose insert establishes key
`k` ends up with `k` present in the final map. -/
theorem batchFold_adds (run : List String → Option (List ε))
    (ins : List (String × α) → ε → List (String × α))
    (hkeep : ∀ m e k, (mapLookup m k).isSome = true →
      (mapLookup (ins m e) k).isSome = true)
    (bs : List (List String)) (m m' : List (String × α))
    (h : batchFold run ins bs (some m) = some m')
    (b : List String) (hb : b ∈ bs) (es : List ε) (hes : run b = some es)
    (e : ε) (he : e ∈ es) (k : String)
    (hadd : ∀ m0, (mapLookup (ins m0 e) k).isSome = true) :
    (mapLookup m' k).isSome = true := by
  induction bs generalizing m with
  | nil => exact absurd hb (List.not_mem_nil _)
  | cons b' bs ih =>
    rcases List.mem_cons.mp hb with rfl | hb'
    · have heq : batchFold run ins (b :: bs) (some m) =
          batchFold run ins bs (some (es.foldl ins m)) := by
        simp only [batchFold, List.foldl_cons, hes]
      rw [heq] at h
      exact batchFold_keeps run ins hkeep bs _ m' h k
        (foldl_ins_adds ins hkeep es e he k hadd m)
    · cases hr : run b' with
      | none =>
        have hnone : batchFold run ins (b' :: bs) (some m) = none := by
          simp only [batchFold, List.foldl_cons, hr]
          exact batchFold_none run ins bs
        rw [hnone] at h
        exact absurd h (by simp)
      | some es' =>
        have heq : batchFold run ins (b' :: bs) (some m) =
            batchFold run ins bs (some (es'.foldl ins m)) := by
          simp only [batchFold, List.foldl_cons, hr]
        rw [heq] at h
        exact ih _ h hb'

/-- `insertImageEntry` preserves every present key. -/
theorem insertImageEntry_keeps (m : List (String × ImageInspect))
    (e : ImageInspectRaw) (k : String) (h : (mapLookup m k).isSome = true) :
    (mapLookup (insertImageEntry m e) k).isSome = true := by
  simp only [insertImageEntry]
  split_ifs
  · exact h
  · exact mapLookup_cons_isSome m k _ _ h

/-- `insertImageEntry` establishes the entry's normalized id when it is
nonempty. -/
theorem insertImageEntry_adds (m : List (String × ImageInspect))
    (e : ImageInspectRaw) (h : NormalizeImageID e.id ≠ "") :
    (mapLookup (insertImageEntry m e) (NormalizeImageID e.id)).isSome = true := by
  simp only [insertImageEntry, fixupImageInspect]
  rw [if_neg h]
  unfold mapLookup
  rw [List.find?_cons]
  simp

/-- `insertVolumeEntry` preserves every present key. -/
theorem insertVolumeEntry_keeps (m : List (String × VolumeInspect))
    (e : VolumeInspect) (k : String) (h : (mapLookup m k).isSome = true) :
    (mapLookup (insertVolumeEntry m e) k).isSome = true := by
  simp only [insertVolumeEntry]
  split_ifs
  · exact h
  · exact mapLookup_cons_isSome m k _ _ h

/-- `insertVolumeEntry` establishes the entry's name when it is nonempty. -/
theorem insertVolumeEntry_adds (m : List (String × VolumeInspect))
    (e : VolumeInspect) (h : e.name ≠ "") :
    (mapLookup (insertVolumeEntry m e) e.name).isSome = true := by
  simp only [insertVolumeEntry]
  rw [if_neg h]
  unfold mapLookup
  rw [List.find?_cons]
  simp

/-- C9: a batch inspection over a list of ids never fails because of a
malformed or missing entry — it fails only when a per-batch CLI call fails —
and whenever it succeeds, the returned map contains a record for every decoded
entry with a usable key (normalized id for images, name for volumes), no
matter what the other entries of its batch look like. -/
theorem batch_inspection_tolerates_bad_entries
    (runI : List String → Option (List ImageInspectRaw)) (ids : List String)
    (runV : List String → Option (List VolumeInspect)) (names : List String) :
    ((InspectImages runI ids).isSome = true ↔
      ∀ b ∈ chunks ids, (runI b).isSome = true) ∧
    (∀ m, InspectImages runI ids = some m →
      ∀ b ∈ chunks ids, ∀ es, runI b = some es →
        ∀ e ∈ es, NormalizeImageID e.id ≠ "" →
          (mapLookup m (NormalizeImageID e.id)).isSome = true) ∧
    ((InspectVolumes runV names).isSome = true ↔
      ∀ b ∈ chunks names, (runV b).isSome = true) ∧
    (∀ m, InspectVolumes runV names = some m →
      ∀ b ∈ chunks names, ∀ es, runV b = some es →
        ∀ e ∈ es, e.name ≠ "" → (mapLookup m e.name).isSome = true) := by
  refine ⟨?_, ?_, ?_, ?_⟩
  · exact batchFold_isSome_iff runI insertImageEntry (chunks ids) []
  · intro m hm b hb es hes e he hkey
    exact batchFold_adds runI insertImageEntry insertImageEntry_keeps (chunks ids)
      [] m hm b hb es hes e he (NormalizeImageID e.id)
      (fun m0 => insertImageEntry_adds m0 e hkey)
  · exact batchFold_isSome_iff runV insertVolumeEntry (chunks names) []
  · intro m hm b hb es hes e he hkey
    exact batchFold_adds runV insertVolumeEntry insertVolumeEntry_keeps (chunks names)
      [] m hm b hb es hes e he e.name
      (fun m0 => insertVolumeEntry_adds m0 e hkey)

/-- A concrete inspect runner: one batch holding a malformed entry (no id)
next to a well-formed one. -/
def runI0 : List String → Option (List ImageInspectRaw) := fun _ =>
  some [⟨"", 0, none, none, []⟩, ⟨"sha256:abc", 5, none, some [("k", "v")], []⟩]

/-- C9 witness: with one malformed entry in the batch, the call still succeeds
and the well-formed entry is present in the returned map. -/
theorem batch_inspection_tolerates_bad_entries_witness :
    (InspectImages runI0 ["abc", "zzz"]).isSome = true ∧
    (mapLookup ((InspectImages runI0 ["abc", "zzz"]).getD [])
      (NormalizeImageID "sha256:abc")).isSome = true := by
  refine ⟨?_, ?_⟩
  · exact (batch_inspection_tolerates_bad_entries runI0 ["abc", "zzz"]
      (fun _ => none) []).1.mpr (by decide)
  · exact (batch_inspection_tolerates_bad_entries runI0 ["abc", "zzz"]
      (fun _ => none) []).2.1 ((InspectImages runI0 ["abc", "zzz"]).getD [])
      (by rfl) ["abc", "zzz"] (by decide)
      [⟨"", 0, none, none, []⟩, ⟨"sha256:abc", 5, none, some [("k", "v")], []⟩] rfl
      ⟨"sha256:abc", 5, none, some [("k", "v")], []⟩ (by decide) (by decide)

end DockerSweep
